import Mathlib

/-!
Shallow embedding of `charm/toolbox/symcrypto.py`: the `MessageAuthenticator`,
`SymmetricCryptoAbstraction` and `AuthenticatedCryptoAbstraction` classes,
together with models of the external collaborators (hash, HMAC, block cipher,
padding, serialization) that the file consumes but that are not part of the
source under consideration.

Python byte strings are modelled as `List Nat` (each element a byte value).
Python `str` values are modelled by their UTF-8 byte content; the `PyData`
type keeps the `str` / `bytes` distinction, which is behaviourally relevant
because `bytes(x, "utf-8")` succeeds on a `str` and raises `TypeError` on a
`bytes` value.  Exceptions are modelled with `Except CryptoError`.
Randomness (the `OpenSSLRand().getRandomBytes` collaborator) is passed in as
an explicit argument.  Attribute assignment on `self` is modelled by
returning an updated record alongside the result.
-/

namespace Symcrypto

/-- Byte strings: lists of byte values. -/
abbrev Bytes := List Nat

/-- A Python value that is either a `str` (stored as its UTF-8 bytes) or a
`bytes` object.  The distinction matters because `bytes(x, "utf-8")` raises
`TypeError` when `x` is already `bytes`. -/
inductive PyData where
  | str (s : Bytes)
  | bytes (b : Bytes)
deriving DecidableEq, Repr

/-- The underlying byte content of a `PyData` value. -/
def PyData.content : PyData → Bytes
  | .str s => s
  | .bytes b => b

/-- The exceptions the code can raise, one constructor per distinct failure
condition of `symcrypto.py`:
`UnsupportedAlgorithm` is the `ValueError` raised on an algorithm-tag
mismatch, `AuthenticationFailure` the `ValueError` raised on an invalid MAC,
`InvalidKeyLength` the `AssertionError` raised on a too-short key,
`PaddingError` and `DecodingError` the failures of unpadding and of envelope
parsing, and `TypeError` the Python `TypeError` raised by
`bytes(msg, "utf-8")` on a `bytes` argument. -/
inductive CryptoError where
  | UnsupportedAlgorithm
  | AuthenticationFailure
  | InvalidKeyLength
  | PaddingError
  | DecodingError
  | TypeError
deriving DecidableEq, Repr

/-- `bytes(x, "utf-8")`: encodes a `str` to its UTF-8 bytes and raises
`TypeError` on a `bytes` argument ("encoding without a string argument"). -/
def bytesUtf8 : PyData → Except CryptoError Bytes
  | .str s => .ok s
  | .bytes _ => .error .TypeError

/-- The UTF-8 bytes of the algorithm tag string `"HMAC_SHA2"`. -/
def algTag : Bytes := [72, 77, 65, 67, 95, 83, 72, 65, 50]

/-- The UTF-8 bytes of the domain-separation constant
`b'Poor Mans Key Extractor'`. -/
def pmkeTag : Bytes :=
  [80, 111, 111, 114, 32, 77, 97, 110, 115, 32, 75, 101, 121, 32,
   69, 120, 116, 114, 97, 99, 116, 111, 114]

/-- Modelled from the spec: the `Hash.sha256(bytes) -> digest` collaborator
(`hashlib.sha256`, not part of the source file), idealized as an injective
digest function (a random-oracle-style idealization: distinct inputs have
distinct digests) whose output is strictly longer than its input, capturing
that the 32-byte digest of the domain-separated key material can never
coincide with the 16-byte encryption key. -/
def sha256 (m : Bytes) : Bytes := m.length :: m

/-- Modelled from the spec: the HMAC collaborator
`hmac.new(key, data, digestmod=sha256).hexdigest()` (Python `hmac`, not part
of the source file), idealized as an injective keyed digest function: for a
fixed key, distinct data yield distinct digests. -/
def hmacSha2Hex (key data : Bytes) : Bytes := key.length :: (key ++ data)

/-- The authenticated envelope produced by `MessageAuthenticator.mac`: a
dictionary `{"alg": ..., "msg": ..., "digest": ...}` where `alg` and
`digest` are `str` values (stored as their byte content) and `msg` is the
caller's message, stored unconverted. -/
structure AuthEnvelope where
  alg : Bytes
  msg : PyData
  digest : Bytes
deriving DecidableEq, Repr

/-- The `MessageAuthenticator` object state: the configured algorithm tag
`_algorithm` (a `str`, stored as bytes) and the MAC key `_key`. -/
structure MessageAuthenticator where
  _algorithm : Bytes
  _key : Bytes
deriving DecidableEq, Repr

/-- `MessageAuthenticator.__init__(key, alg="HMAC_SHA2")`: rejects any
algorithm other than `"HMAC_SHA2"` with a `ValueError`, otherwise stores the
algorithm tag and the key. -/
def MessageAuthenticator.init (key : Bytes) (alg : Bytes) :
    Except CryptoError MessageAuthenticator :=
  if alg = algTag then .ok ⟨alg, key⟩ else .error .UnsupportedAlgorithm

/-- `MessageAuthenticator.mac(msg, additionalData=b'')`: converts
`additionalData` to bytes if it is not already, then returns the envelope
`{"alg": self._algorithm, "msg": msg, "digest": HMAC(self._key,
bytes(self._algorithm) + additionalData + bytes(msg, "utf-8")).hexdigest()}`.
Note that `bytes(msg, "utf-8")` raises `TypeError` when `msg` is a `bytes`
value. -/
def MessageAuthenticator.mac (self : MessageAuthenticator) (msg : PyData)
    (additionalData : PyData) : Except CryptoError AuthEnvelope := do
  let ad : Bytes :=
    match additionalData with
    | .bytes b => b
    | .str s => s
  let msgB ← bytesUtf8 msg
  pure ⟨self._algorithm, msg,
        hmacSha2Hex self._key (self._algorithm ++ ad ++ msgB)⟩

/-- `MessageAuthenticator.verify(msgAndDigest, additionalData=b'')`: raises
`ValueError` if the envelope's `alg` differs from the configured one,
otherwise recomputes the digest via `mac` on the envelope's `msg` and the
supplied additional data and returns whether the SHA-256 hash of the
recomputed digest equals the SHA-256 hash of the received digest. -/
def MessageAuthenticator.verify (self : MessageAuthenticator)
    (msgAndDigest : AuthEnvelope) (additionalData : PyData) :
    Except CryptoError Bool := do
  if msgAndDigest.alg ≠ self._algorithm then
    throw .UnsupportedAlgorithm
  else
    let expectedEnv ← self.mac msgAndDigest.msg additionalData
    let expected := expectedEnv.digest
    let received := msgAndDigest.digest
    pure (sha256 expected == sha256 received)

/-- The `AES` algorithm identifier imported from
`charm.core.crypto.cryptobase` (value `0`, as shown by the serialized
envelopes in the source's doctests). -/
def AES : Nat := 0

/-- The `MODE_CBC` mode identifier imported from
`charm.core.crypto.cryptobase` (value `2`, as shown by the serialized
envelopes in the source's doctests). -/
def MODE_CBC : Nat := 2

/-- Modelled from the spec: the `PaddingScheme.pad` collaborator
(`PKCS7Padding.encode`, not part of the source file): extends the message
with `k` copies of the byte `k`, where `k` is the distance to the next
multiple of the 16-byte block size (a full extra block when the message
length is already a multiple). -/
def pkcs7Encode (m : Bytes) : Bytes :=
  m ++ List.replicate (16 - m.length % 16) (16 - m.length % 16)

/-- Modelled from the spec: the `PaddingScheme.unpad` collaborator
(`PKCS7Padding.decode`, not part of the source file): reads the final byte
`k`, checks that the message ends in `k` copies of `k` with `1 ≤ k ≤ 16`,
strips them, and fails (`PaddingError`) on invalid padding. -/
def pkcs7Decode (m : Bytes) : Option Bytes :=
  match m.getLast? with
  | none => none
  | some k =>
    if 1 ≤ k ∧ k ≤ 16 ∧ k ≤ m.length ∧
        m.drop (m.length - k) = List.replicate k k then
      some (m.take (m.length - k))
    else
      none

/-- Modelled from the spec: the keystream of the block-cipher collaborator
(`selectPRP(AES, (key, MODE_CBC, IV))`, not part of the source file): a
concrete byte derived from the key, the mode and the IV. -/
def prpKeystream (key : Bytes) (mode : Nat) (iv : Bytes) : Nat :=
  (List.foldl (fun a b => a * 131 + b + 1) mode (key ++ iv)) % 256

/-- Modelled from the spec: the `BlockCipher.encrypt` collaborator, idealized
as an invertible keyed transformation: each byte is XOR-ed with a keystream
byte determined by the key, the mode and the IV. -/
def prpEncrypt (key : Bytes) (mode : Nat) (iv : Bytes) (data : Bytes) :
    Bytes :=
  data.map (fun b => b ^^^ prpKeystream key mode iv)

/-- Modelled from the spec: the `BlockCipher.decrypt` collaborator, the exact
inverse of `prpEncrypt` (XOR with the same keystream byte). -/
def prpDecrypt (key : Bytes) (mode : Nat) (iv : Bytes) (data : Bytes) :
    Bytes :=
  data.map (fun b => b ^^^ prpKeystream key mode iv)

/-- The ciphertext dictionary assembled by
`SymmetricCryptoAbstraction._encrypt`:
`{'ALG': ..., 'MODE': ..., 'IV': ..., 'CipherText': ...}`.  Before encoding,
`IV` and `CipherText` hold raw bytes; after `_encode`, they hold the byte
content of the base64 text. -/
structure CtDict where
  ALG : Nat
  MODE : Nat
  IV : Bytes
  CipherText : Bytes
deriving DecidableEq, Repr

/-- Modelled from the spec: the `b64encode(x).decode('utf-8')` collaborator
(binary-to-text encoding, not part of the source file), as a concrete
injective byte-to-text encoding: each byte becomes two text bytes. -/
def b64encode (b : Bytes) : Bytes :=
  b.flatMap (fun x => [48 + x / 16, 48 + x % 16])

/-- Modelled from the spec: the `b64decode(bytes(x, 'utf-8'))` collaborator,
the exact decoder of `b64encode`: consecutive pairs of text bytes are
recombined into one byte. -/
def b64decode : Bytes → Bytes
  | c1 :: c2 :: rest => ((c1 - 48) * 16 + (c2 - 48)) :: b64decode rest
  | _ => []

/-- Modelled from the spec: `json.dumps` applied to the encoded ciphertext
dictionary — the canonical envelope serialization with fixed field order
`ALG, MODE, IV, CipherText` — as a concrete injective length-prefixed
encoding into a text string. -/
def jsonDumps (c : CtDict) : Bytes :=
  [c.ALG, c.MODE, c.IV.length] ++ c.IV ++ c.CipherText

/-- Modelled from the spec: `json.loads` applied to a serialized ciphertext
dictionary, the parser of `jsonDumps`; returns `none` (the
`DecodingError` condition) on a malformed input. -/
def jsonLoads (s : Bytes) : Option CtDict :=
  match s with
  | a :: m :: n :: rest =>
    if n ≤ rest.length then some ⟨a, m, rest.take n, rest.drop n⟩ else none
  | _ => none

/-- The `SymmetricCryptoAbstraction` object state: the attributes assigned by
`__init__` (`_alg`, `key_len`, `_block_size`, `_mode`, `_key`) together with
`_IV`, which is `none` until `_initCipher` first assigns it.  The
`_padding` attribute is a stateless `PKCS7Padding` object, modelled by the
pure functions `pkcs7Encode` / `pkcs7Decode`. -/
structure SymmetricCryptoAbstraction where
  _alg : Nat
  key_len : Nat
  _block_size : Nat
  _mode : Nat
  _key : Bytes
  _IV : Option Bytes
deriving DecidableEq, Repr

/-- `SymmetricCryptoAbstraction.__init__(key, alg=AES, mode=MODE_CBC)`:
stores the algorithm and mode, truncates the key to its first
`key_len = 16` bytes, and fails (the `AssertionError`
"SymmetricCryptoAbstraction key too short") when the truncated key is
shorter than 16 bytes. -/
def SymmetricCryptoAbstraction.init (key : Bytes) (alg : Nat) (mode : Nat) :
    Except CryptoError SymmetricCryptoAbstraction :=
  let k := key.take 16
  if k.length = 16 then
    .ok ⟨alg, 16, 16, mode, k, none⟩
  else
    .error .InvalidKeyLength

/-- `SymmetricCryptoAbstraction._initCipher(IV=None)`: draws a fresh random
IV (`rand`, the output of the secure-random collaborator) when none is
given, assigns it to `self._IV`, and constructs the cipher
`selectPRP(self._alg, (self._key, self._mode, self._IV))` (represented by
the IV that parameterizes `prpEncrypt` / `prpDecrypt`).  Returns the IV used
together with the updated object. -/
def SymmetricCryptoAbstraction._initCipher
    (self : SymmetricCryptoAbstraction) (IV : Option Bytes) (rand : Bytes) :
    Bytes × SymmetricCryptoAbstraction :=
  let iv := IV.getD rand
  (iv, { self with _IV := some iv })

/-- `SymmetricCryptoAbstraction._encrypt(message)`: constructs a fresh
cipher (drawing a fresh IV), pads the message with PKCS#7 and encrypts it,
and assembles the raw ciphertext dictionary
`{'ALG': self._alg, 'MODE': self._mode, 'IV': self._IV, 'CipherText': ...}`. -/
def SymmetricCryptoAbstraction._encrypt
    (self : SymmetricCryptoAbstraction) (rand : Bytes) (message : Bytes) :
    CtDict × SymmetricCryptoAbstraction :=
  let p := self._initCipher none rand
  (⟨self._alg, self._mode, p.1,
    prpEncrypt self._key self._mode p.1 (pkcs7Encode message)⟩, p.2)

/-- `SymmetricCryptoAbstraction._encode(data)`: base64-encodes the `IV` and
`CipherText` fields for JSON transport. -/
def SymmetricCryptoAbstraction._encode (data : CtDict) : CtDict :=
  { data with IV := b64encode data.IV, CipherText := b64encode data.CipherText }

/-- `SymmetricCryptoAbstraction._decode(data)`: base64-decodes the `IV` and
`CipherText` fields of a parsed envelope. -/
def SymmetricCryptoAbstraction._decode (data : CtDict) : CtDict :=
  { data with IV := b64decode data.IV, CipherText := b64decode data.CipherText }

/-- `SymmetricCryptoAbstraction.encrypt(message)`: converts a `str` message
to bytes, encrypts it via `_encrypt`, and returns the JSON serialization of
the base64-encoded ciphertext dictionary (a `str`). -/
def SymmetricCryptoAbstraction.encrypt
    (self : SymmetricCryptoAbstraction) (rand : Bytes) (message : PyData) :
    Bytes × SymmetricCryptoAbstraction :=
  let m : Bytes :=
    match message with
    | .bytes b => b
    | .str s => s
  let p := self._encrypt rand m
  (jsonDumps (SymmetricCryptoAbstraction._encode p.1), p.2)

/-- `SymmetricCryptoAbstraction._decrypt(cipherText)`: reconstructs the
cipher with the envelope's IV (assigning `self._IV`), decrypts the
ciphertext, and removes the padding (raising the padding failure on invalid
padding). -/
def SymmetricCryptoAbstraction._decrypt
    (self : SymmetricCryptoAbstraction) (cipherText : CtDict) :
    Except CryptoError (Bytes × SymmetricCryptoAbstraction) :=
  let p := self._initCipher (some cipherText.IV) []
  let msg := prpDecrypt self._key self._mode p.1 cipherText.CipherText
  match pkcs7Decode msg with
  | none => .error .PaddingError
  | some m => .ok (m, p.2)

/-- `SymmetricCryptoAbstraction.decrypt(cipherText)`: parses the serialized
envelope (raising the decoding failure on malformed input), base64-decodes
its fields and decrypts via `_decrypt`. -/
def SymmetricCryptoAbstraction.decrypt
    (self : SymmetricCryptoAbstraction) (cipherText : Bytes) :
    Except CryptoError (Bytes × SymmetricCryptoAbstraction) :=
  match jsonLoads cipherText with
  | none => .error .DecodingError
  | some f => self._decrypt (SymmetricCryptoAbstraction._decode f)

/-- The MAC key computed at the start of both
`AuthenticatedCryptoAbstraction.encrypt` and
`AuthenticatedCryptoAbstraction.decrypt`:
`mac_key = sha2(b'Poor Mans Key Extractor' + self._key).digest()`. -/
def AuthenticatedCryptoAbstraction.mac_key
    (self : SymmetricCryptoAbstraction) : Bytes :=
  sha256 (pmkeTag ++ self._key)

/-- `AuthenticatedCryptoAbstraction.encrypt(msg, additionalData='')`:
derives the MAC key, builds a `MessageAuthenticator` over it (with the
default algorithm `"HMAC_SHA2"`), encrypts the message via the superclass
`SymmetricCryptoAbstraction.encrypt` into a serialized envelope `str`, and
MACs that string with the additional data bound in. -/
def AuthenticatedCryptoAbstraction.encrypt
    (self : SymmetricCryptoAbstraction) (rand : Bytes) (msg : PyData)
    (additionalData : PyData) :
    Except CryptoError (AuthEnvelope × SymmetricCryptoAbstraction) := do
  let m : MessageAuthenticator :=
    ⟨algTag, AuthenticatedCryptoAbstraction.mac_key self⟩
  let p := SymmetricCryptoAbstraction.encrypt self rand msg
  let env ← m.mac (.str p.1) additionalData
  pure (env, p.2)

/-- `AuthenticatedCryptoAbstraction.decrypt(cipherText, additionalData='')`:
derives the MAC key, verifies the envelope with the additional data, raises
the `ValueError` "Invalid mac. Your data was tampered with or your key is
wrong" when verification returns `False`, and only on success invokes the
superclass `SymmetricCryptoAbstraction.decrypt` on `cipherText['msg']`. -/
def AuthenticatedCryptoAbstraction.decrypt
    (self : SymmetricCryptoAbstraction) (cipherText : AuthEnvelope)
    (additionalData : PyData) :
    Except CryptoError (Bytes × SymmetricCryptoAbstraction) := do
  let m : MessageAuthenticator :=
    ⟨algTag, AuthenticatedCryptoAbstraction.mac_key self⟩
  let okMac ← m.verify cipherText additionalData
  if okMac then
    SymmetricCryptoAbstraction.decrypt self cipherText.msg.content
  else
    throw .AuthenticationFailure

/-- A sample 16-byte all-zero key, used to instantiate theorems at concrete
inputs. -/
def sampleKey : Bytes := List.replicate 16 0

/-- The `SymmetricCryptoAbstraction` state constructed from `sampleKey`. -/
def sampleBox : SymmetricCryptoAbstraction :=
  ⟨0, 16, 16, 2, List.replicate 16 0, none⟩

/-- The state of `sampleBox` after an operation with the empty IV. -/
def sampleBoxIV : SymmetricCryptoAbstraction :=
  ⟨0, 16, 16, 2, List.replicate 16 0, some []⟩

/-- The authenticated envelope produced by AEAD-encrypting the plaintext
`[7]` under `sampleBox` with empty randomness and empty additional data. -/
def sampleEnvelope : AuthEnvelope :=
  ⟨algTag,
   .str (SymmetricCryptoAbstraction.encrypt sampleBox [] (.str [7])).1,
   hmacSha2Hex (AuthenticatedCryptoAbstraction.mac_key sampleBox)
     (algTag ++ [] ++
       (SymmetricCryptoAbstraction.encrypt sampleBox [] (.str [7])).1)⟩

/-- The authenticated envelope produced by AEAD-encrypting the plaintext
`[7]` under `sampleBox` with empty randomness and additional data `[1]`. -/
def sampleEnvelopeAD : AuthEnvelope :=
  ⟨algTag,
   .str (SymmetricCryptoAbstraction.encrypt sampleBox [] (.str [7])).1,
   hmacSha2Hex (AuthenticatedCryptoAbstraction.mac_key sampleBox)
     (algTag ++ [1] ++
       (SymmetricCryptoAbstraction.encrypt sampleBox [] (.str [7])).1)⟩

theorem sha256_injective : Function.Injective sha256 := by
  intro a b h
  exact (by simpa [sha256] using h : List.length a = List.length b ∧ a = b).2

theorem hmacSha2Hex_injective_data (key : Bytes) :
    Function.Injective (hmacSha2Hex key) := by
  intro a b h
  simp only [hmacSha2Hex, List.cons.injEq] at h
  exact List.append_cancel_left h.2

theorem pkcs7Decode_encode (m : Bytes) : pkcs7Decode (pkcs7Encode m) = some m := by
  have hmod : m.length % 16 < 16 := Nat.mod_lt _ (by norm_num)
  show pkcs7Decode
      (m ++ List.replicate (16 - m.length % 16) (16 - m.length % 16)) = some m
  set k := 16 - m.length % 16 with hkdef
  have hk1 : 1 ≤ k := by omega
  have hk16 : k ≤ 16 := by omega
  have hrep : List.replicate k k ≠ [] := by
    simp only [ne_eq, List.replicate_eq_nil_iff]
    omega
  have hlast : (m ++ List.replicate k k).getLast? = some k := by
    rw [List.getLast?_append_of_ne_nil _ hrep]
    obtain ⟨n, hn⟩ : ∃ n, k = n + 1 := ⟨k - 1, by omega⟩
    rw [hn, List.replicate_succ']
    simp
  have hlen : (m ++ List.replicate k k).length = m.length + k := by simp
  have hsub : (m ++ List.replicate k k).length - k = m.length := by omega
  have hdrop : (m ++ List.replicate k k).drop
      ((m ++ List.replicate k k).length - k) = List.replicate k k := by
    rw [hsub, List.drop_left]
  have htake : (m ++ List.replicate k k).take
      ((m ++ List.replicate k k).length - k) = m := by
    rw [hsub, List.take_left]
  rw [pkcs7Decode, hlast]
  show (if 1 ≤ k ∧ k ≤ 16 ∧ k ≤ (m ++ List.replicate k k).length ∧
      (m ++ List.replicate k k).drop ((m ++ List.replicate k k).length - k) =
        List.replicate k k then
      some ((m ++ List.replicate k k).take
        ((m ++ List.replicate k k).length - k))
    else none) = some m
  rw [if_pos ⟨hk1, hk16, by omega, hdrop⟩, htake]

theorem b64decode_encode (b : Bytes) : b64decode (b64encode b) = b := by
  induction b with
  | nil => rfl
  | cons x rest ih =>
    have hstep : b64encode (x :: rest) =
        (48 + x / 16) :: (48 + x % 16) :: b64encode rest := by
      simp [b64encode]
    rw [hstep, b64decode, ih]
    congr 1
    omega

theorem jsonLoads_dumps (c : CtDict) : jsonLoads (jsonDumps c) = some c := by
  obtain ⟨a, m, iv, ct⟩ := c
  show jsonLoads (a :: m :: iv.length :: (iv ++ ct)) = some ⟨a, m, iv, ct⟩
  rw [jsonLoads]
  rw [if_pos (by simp)]
  rw [List.take_left, List.drop_left]

theorem prpDecrypt_encrypt (key : Bytes) (mode : Nat) (iv data : Bytes) :
    prpDecrypt key mode iv (prpEncrypt key mode iv data) = data := by
  simp [prpDecrypt, prpEncrypt, List.map_map, Function.comp_def,
        Nat.xor_cancel_right]

theorem decode_encode_id (c : CtDict) :
    SymmetricCryptoAbstraction._decode (SymmetricCryptoAbstraction._encode c)
      = c := by
  obtain ⟨a, m, iv, ct⟩ := c
  simp [SymmetricCryptoAbstraction._decode, SymmetricCryptoAbstraction._encode,
        b64decode_encode]

theorem SymmetricCryptoAbstraction.encrypt_snd
    (self : SymmetricCryptoAbstraction) (rand : Bytes) (message : PyData) :
    (SymmetricCryptoAbstraction.encrypt self rand message).2 =
      { self with _IV := some rand } := by
  cases message <;> rfl

theorem SymmetricCryptoAbstraction.decrypt_encrypt
    (self : SymmetricCryptoAbstraction) (rand : Bytes) (message : PyData) :
    SymmetricCryptoAbstraction.decrypt self
      (SymmetricCryptoAbstraction.encrypt self rand message).1 =
      .ok (message.content, { self with _IV := some rand }) := by
  cases message with
  | str s =>
    simp [SymmetricCryptoAbstraction.encrypt,
          SymmetricCryptoAbstraction._encrypt,
          SymmetricCryptoAbstraction._initCipher,
          SymmetricCryptoAbstraction.decrypt, jsonLoads_dumps,
          decode_encode_id, SymmetricCryptoAbstraction._decrypt,
          prpDecrypt_encrypt, pkcs7Decode_encode, PyData.content]
  | bytes b =>
    simp [SymmetricCryptoAbstraction.encrypt,
          SymmetricCryptoAbstraction._encrypt,
          SymmetricCryptoAbstraction._initCipher,
          SymmetricCryptoAbstraction.decrypt, jsonLoads_dumps,
          decode_encode_id, SymmetricCryptoAbstraction._decrypt,
          prpDecrypt_encrypt, pkcs7Decode_encode, PyData.content]

theorem AuthenticatedCryptoAbstraction.encrypt_eq
    (s : SymmetricCryptoAbstraction) (rand : Bytes) (msg ad : PyData) :
    AuthenticatedCryptoAbstraction.encrypt s rand msg ad =
      .ok (⟨algTag, .str (SymmetricCryptoAbstraction.encrypt s rand msg).1,
            hmacSha2Hex (AuthenticatedCryptoAbstraction.mac_key s)
              (algTag ++ ad.content ++
                (SymmetricCryptoAbstraction.encrypt s rand msg).1)⟩,
           (SymmetricCryptoAbstraction.encrypt s rand msg).2) := by
  cases ad <;> rfl

theorem MessageAuthenticator.verify_mac_self (m : MessageAuthenticator)
    (msg ad : PyData) (env : AuthEnvelope) (h : m.mac msg ad = .ok env) :
    m.verify env ad = .ok true := by
  cases msg with
  | str s =>
    cases ad with
    | str a =>
      simp only [MessageAuthenticator.mac, bytesUtf8, Bind.bind, Except.bind,
                 pure, Except.pure, Except.ok.injEq] at h
      subst h
      simp [MessageAuthenticator.verify, MessageAuthenticator.mac, bytesUtf8,
            Bind.bind, Except.bind, pure, Except.pure]
    | bytes a =>
      simp only [MessageAuthenticator.mac, bytesUtf8, Bind.bind, Except.bind,
                 pure, Except.pure, Except.ok.injEq] at h
      subst h
      simp [MessageAuthenticator.verify, MessageAuthenticator.mac, bytesUtf8,
            Bind.bind, Except.bind, pure, Except.pure]
  | bytes b =>
    cases ad <;> simp [MessageAuthenticator.mac, bytesUtf8] at h

theorem aead_roundtrip_aux (s : SymmetricCryptoAbstraction) (rand : Bytes)
    (msg adE adD : PyData) (hc : adE.content = adD.content) :
    AuthenticatedCryptoAbstraction.decrypt s
      ⟨algTag, .str (SymmetricCryptoAbstraction.encrypt s rand msg).1,
        hmacSha2Hex (AuthenticatedCryptoAbstraction.mac_key s)
          (algTag ++ adE.content ++
            (SymmetricCryptoAbstraction.encrypt s rand msg).1)⟩ adD =
      .ok (msg.content, { s with _IV := some rand }) := by
  rw [hc]
  have hrt := SymmetricCryptoAbstraction.decrypt_encrypt s rand msg
  have hver : MessageAuthenticator.verify
      ⟨algTag, AuthenticatedCryptoAbstraction.mac_key s⟩
      ⟨algTag, .str (SymmetricCryptoAbstraction.encrypt s rand msg).1,
        hmacSha2Hex (AuthenticatedCryptoAbstraction.mac_key s)
          (algTag ++ adD.content ++
            (SymmetricCryptoAbstraction.encrypt s rand msg).1)⟩ adD =
      .ok true :=
    MessageAuthenticator.verify_mac_self _
      (.str (SymmetricCryptoAbstraction.encrypt s rand msg).1) adD _
      (by cases adD <;> rfl)
  simp only [AuthenticatedCryptoAbstraction.decrypt]
  rw [hver]
  simpa [PyData.content] using hrt

/-- Claim C1: for every key accepted by AeadBox construction (length at
least the required 16 bytes), every plaintext and every additional data,
AEAD decryption of the envelope produced by AEAD encryption with the same
key and the same additional data succeeds and returns exactly the original
plaintext as bytes. -/
theorem C1_aead_roundtrip (key : Bytes) (s : SymmetricCryptoAbstraction)
    (hs : SymmetricCryptoAbstraction.init key AES MODE_CBC = .ok s)
    (rand : Bytes) (msg ad : PyData) (env : AuthEnvelope)
    (s1 : SymmetricCryptoAbstraction)
    (henc : AuthenticatedCryptoAbstraction.encrypt s rand msg ad =
      .ok (env, s1)) :
    AuthenticatedCryptoAbstraction.decrypt s env ad =
      .ok (msg.content, s1) := by
  rw [AuthenticatedCryptoAbstraction.encrypt_eq, Except.ok.injEq,
      Prod.mk.injEq] at henc
  obtain ⟨henv, hs1⟩ := henc
  subst henv
  subst hs1
  rw [SymmetricCryptoAbstraction.encrypt_snd]
  exact aead_roundtrip_aux s rand msg ad ad rfl

/-- Concrete instantiation of `C1_aead_roundtrip`: the all-zero 16-byte key,
empty randomness, plaintext byte `[7]` and empty additional data. -/
theorem C1_aead_roundtrip_witness :
    AuthenticatedCryptoAbstraction.decrypt sampleBox sampleEnvelope
      (.str []) = .ok ([7], sampleBoxIV) :=
  C1_aead_roundtrip sampleKey sampleBox (by rfl) [] (.str [7]) (.str [])
    sampleEnvelope sampleBoxIV (by rfl)

theorem MessageAuthenticator.mac_error (m : MessageAuthenticator)
    (msg ad : PyData) (e : CryptoError) (h : m.mac msg ad = .error e) :
    e = .TypeError := by
  cases msg with
  | str t =>
    cases ad <;>
      simp [MessageAuthenticator.mac, bytesUtf8, Bind.bind, Except.bind,
            pure, Except.pure] at h
  | bytes b =>
    cases ad <;>
      · simp only [MessageAuthenticator.mac, bytesUtf8, Bind.bind,
                   Except.bind, Except.error.injEq] at h
        exact h.symm

theorem MessageAuthenticator.verify_error_cases (m : MessageAuthenticator)
    (env : AuthEnvelope) (ad : PyData) (e : CryptoError)
    (h : m.verify env ad = .error e) :
    e = .UnsupportedAlgorithm ∨ e = .TypeError := by
  simp only [MessageAuthenticator.verify] at h
  split at h
  · left
    simp only [throw, throwThe, MonadExceptOf.throw, Except.error.injEq] at h
    exact h.symm
  · cases hm : m.mac env.msg ad with
    | error e2 =>
      rw [hm] at h
      simp only [Bind.bind, Except.bind, Except.error.injEq] at h
      right
      rw [← h]
      exact MessageAuthenticator.mac_error m env.msg ad e2 hm
    | ok v =>
      rw [hm] at h
      simp [Bind.bind, Except.bind, pure, Except.pure] at h

theorem SymmetricCryptoAbstraction.decrypt_error_cases
    (self : SymmetricCryptoAbstraction) (ct : Bytes) (e : CryptoError)
    (h : self.decrypt ct = .error e) :
    e = .DecodingError ∨ e = .PaddingError := by
  simp only [SymmetricCryptoAbstraction.decrypt] at h
  cases hj : jsonLoads ct with
  | none =>
    rw [hj] at h
    simp only [Except.error.injEq] at h
    left
    exact h.symm
  | some f =>
    rw [hj] at h
    simp only [SymmetricCryptoAbstraction._decrypt,
               SymmetricCryptoAbstraction._initCipher, Option.getD_some] at h
    split at h
    · right
      simp only [Except.error.injEq] at h
      exact h.symm
    · simp at h

/-- Claim C2: AEAD decryption first verifies the MAC of the unmodified
envelope; it raises `AuthenticationFailure` exactly when verification
returns `False`, in which case no plaintext (partial or whole) is returned,
and only on successful verification is the symmetric-cipher decryption
applied to the envelope's `msg`. -/
theorem C2_fail_closed (self : SymmetricCryptoAbstraction)
    (env : AuthEnvelope) (ad : PyData) :
    (MessageAuthenticator.verify
        ⟨algTag, AuthenticatedCryptoAbstraction.mac_key self⟩ env ad =
        .ok false ↔
      AuthenticatedCryptoAbstraction.decrypt self env ad =
        .error .AuthenticationFailure) ∧
    (∀ pt s1,
      AuthenticatedCryptoAbstraction.decrypt self env ad = .ok (pt, s1) →
      MessageAuthenticator.verify
        ⟨algTag, AuthenticatedCryptoAbstraction.mac_key self⟩ env ad =
        .ok true ∧
      SymmetricCryptoAbstraction.decrypt self env.msg.content =
        .ok (pt, s1)) := by
  cases hv : MessageAuthenticator.verify
      ⟨algTag, AuthenticatedCryptoAbstraction.mac_key self⟩ env ad with
  | error e =>
    have hd : AuthenticatedCryptoAbstraction.decrypt self env ad =
        .error e := by
      simp only [AuthenticatedCryptoAbstraction.decrypt]
      rw [hv]
      rfl
    have hne : e ≠ .AuthenticationFailure := by
      rcases MessageAuthenticator.verify_error_cases _ _ _ _ hv with he | he <;>
        simp [he]
    refine ⟨⟨fun h => ?_, fun h => ?_⟩, fun pt s1 h => ?_⟩
    · simp at h
    · rw [hd] at h
      simp only [Except.error.injEq] at h
      exact absurd h hne
    · rw [hd] at h
      simp at h
  | ok b =>
    cases b with
    | false =>
      have hd : AuthenticatedCryptoAbstraction.decrypt self env ad =
          .error .AuthenticationFailure := by
        simp only [AuthenticatedCryptoAbstraction.decrypt]
        rw [hv]
        rfl
      refine ⟨⟨fun _ => hd, fun _ => rfl⟩, fun pt s1 h => ?_⟩
      rw [hd] at h
      simp at h
    | true =>
      have hd : AuthenticatedCryptoAbstraction.decrypt self env ad =
          SymmetricCryptoAbstraction.decrypt self env.msg.content := by
        simp only [AuthenticatedCryptoAbstraction.decrypt]
        rw [hv]
        rfl
      refine ⟨⟨fun h => ?_, fun h => ?_⟩, fun pt s1 h => ?_⟩
      · simp at h
      · rw [hd] at h
        rcases SymmetricCryptoAbstraction.decrypt_error_cases _ _ _ h
          with he | he <;> simp at he
      · rw [hd] at h
        exact ⟨rfl, h⟩

/-- Concrete instantiation of `C2_fail_closed`: for the sample envelope the
success path verifies the MAC and returns the plaintext `[7]` via the
symmetric-cipher decryption of the envelope's `msg`. -/
theorem C2_fail_closed_witness :
    MessageAuthenticator.verify
      ⟨algTag, AuthenticatedCryptoAbstraction.mac_key sampleBox⟩
      sampleEnvelope (.str []) = .ok true ∧
    SymmetricCryptoAbstraction.decrypt sampleBox sampleEnvelope.msg.content =
      .ok ([7], sampleBoxIV) :=
  (C2_fail_closed sampleBox sampleEnvelope (.str [])).2 [7] sampleBoxIV
    (by rfl)

/-- Claim C3: for every key accepted by construction, plaintext and
additional data values, decrypting the envelope produced with additional
data `ad1` using additional data `ad2` succeeds and returns the plaintext
when the two additional-data byte strings are equal, and fails with
`AuthenticationFailure` when they differ. -/
theorem C3_ad_binding (key : Bytes) (s : SymmetricCryptoAbstraction)
    (hs : SymmetricCryptoAbstraction.init key AES MODE_CBC = .ok s)
    (rand : Bytes) (msg ad1 ad2 : PyData) (env : AuthEnvelope)
    (s1 : SymmetricCryptoAbstraction)
    (henc : AuthenticatedCryptoAbstraction.encrypt s rand msg ad1 =
      .ok (env, s1)) :
    (ad1.content = ad2.content →
      AuthenticatedCryptoAbstraction.decrypt s env ad2 =
        .ok (msg.content, s1)) ∧
    (ad1.content ≠ ad2.content →
      AuthenticatedCryptoAbstraction.decrypt s env ad2 =
        .error .AuthenticationFailure) := by
  rw [AuthenticatedCryptoAbstraction.encrypt_eq, Except.ok.injEq,
      Prod.mk.injEq] at henc
  obtain ⟨henv, hs1⟩ := henc
  subst henv
  subst hs1
  rw [SymmetricCryptoAbstraction.encrypt_snd]
  constructor
  · intro hc
    exact aead_roundtrip_aux s rand msg ad1 ad2 hc
  · intro hc
    have hne : hmacSha2Hex (AuthenticatedCryptoAbstraction.mac_key s)
        (algTag ++ ad2.content ++
          (SymmetricCryptoAbstraction.encrypt s rand msg).1) ≠
        hmacSha2Hex (AuthenticatedCryptoAbstraction.mac_key s)
        (algTag ++ ad1.content ++
          (SymmetricCryptoAbstraction.encrypt s rand msg).1) := by
      intro hEq
      apply hc
      have h2 := hmacSha2Hex_injective_data _ hEq
      have h3 := List.append_cancel_right h2
      exact (List.append_cancel_left h3).symm
    have hsha : sha256 (hmacSha2Hex (AuthenticatedCryptoAbstraction.mac_key s)
        (algTag ++ ad2.content ++
          (SymmetricCryptoAbstraction.encrypt s rand msg).1)) ≠
        sha256 (hmacSha2Hex (AuthenticatedCryptoAbstraction.mac_key s)
        (algTag ++ ad1.content ++
          (SymmetricCryptoAbstraction.encrypt s rand msg).1)) :=
      fun hEq => hne (sha256_injective hEq)
    have hmac2 : MessageAuthenticator.mac
        ⟨algTag, AuthenticatedCryptoAbstraction.mac_key s⟩
        (.str (SymmetricCryptoAbstraction.encrypt s rand msg).1) ad2 =
        .ok ⟨algTag,
          .str (SymmetricCryptoAbstraction.encrypt s rand msg).1,
          hmacSha2Hex (AuthenticatedCryptoAbstraction.mac_key s)
            (algTag ++ ad2.content ++
              (SymmetricCryptoAbstraction.encrypt s rand msg).1)⟩ := by
      cases ad2 <;> rfl
    have hver : MessageAuthenticator.verify
        ⟨algTag, AuthenticatedCryptoAbstraction.mac_key s⟩
        ⟨algTag, .str (SymmetricCryptoAbstraction.encrypt s rand msg).1,
          hmacSha2Hex (AuthenticatedCryptoAbstraction.mac_key s)
            (algTag ++ ad1.content ++
              (SymmetricCryptoAbstraction.encrypt s rand msg).1)⟩ ad2 =
        .ok false := by
      simp only [MessageAuthenticator.verify]
      rw [if_neg (by simp)]
      rw [hmac2]
      simp only [Bind.bind, Except.bind, pure, Except.pure, Except.ok.injEq]
      exact beq_eq_false_iff_ne.mpr hsha
    simp only [AuthenticatedCryptoAbstraction.decrypt]
    rw [hver]
    rfl

/-- Concrete instantiation of `C3_ad_binding`: the envelope authenticated
with additional data `[1]` decrypts with equal-content additional data and
fails with `AuthenticationFailure` under additional data `[2]`. -/
theorem C3_ad_binding_witness :
    AuthenticatedCryptoAbstraction.decrypt sampleBox sampleEnvelopeAD
      (.bytes [1]) = .ok ([7], sampleBoxIV) ∧
    AuthenticatedCryptoAbstraction.decrypt sampleBox sampleEnvelopeAD
      (.str [2]) = .error .AuthenticationFailure :=
  ⟨(C3_ad_binding sampleKey sampleBox (by rfl) [] (.str [7]) (.str [1])
      (.bytes [1]) sampleEnvelopeAD sampleBoxIV (by rfl)).1 (by rfl),
   (C3_ad_binding sampleKey sampleBox (by rfl) [] (.str [7]) (.str [1])
      (.str [2]) sampleEnvelopeAD sampleBoxIV (by rfl)).2 (by decide)⟩

theorem MessageAuthenticator.mac_str (m : MessageAuthenticator) (t : Bytes)
    (ad : PyData) :
    m.mac (.str t) ad =
      .ok ⟨m._algorithm, .str t,
        hmacSha2Hex m._key (m._algorithm ++ ad.content ++ t)⟩ := by
  cases ad <;> rfl

/-- Claim C4: the digest of the envelope returned by
`MessageAuthenticator.mac` is the hex-encoded HMAC-SHA-256, under the
configured key, of the byte concatenation
`algorithmTag ++ additionalData ++ message` in that fixed order with no
length delimiters, and the digest is a deterministic function of the key,
the message and the additional data: repeated calls with identical inputs
return the same digest. -/
theorem C4_mac_digest (m : MessageAuthenticator) (msg ad : PyData)
    (env env2 : AuthEnvelope) (h : m.mac msg ad = .ok env)
    (h2 : m.mac msg ad = .ok env2) :
    env.digest =
      hmacSha2Hex m._key (m._algorithm ++ ad.content ++ msg.content) ∧
    env2.digest = env.digest := by
  cases msg with
  | str t =>
    rw [MessageAuthenticator.mac_str, Except.ok.injEq] at h h2
    subst h
    subst h2
    exact ⟨rfl, rfl⟩
  | bytes b =>
    cases ad <;>
      simp [MessageAuthenticator.mac, bytesUtf8, Bind.bind, Except.bind] at h

/-- Concrete instantiation of `C4_mac_digest` at key `[5]`, message `[1]`
and additional data `[2]`. -/
theorem C4_mac_digest_witness :
    (⟨algTag, .str [1], hmacSha2Hex [5] (algTag ++ [2] ++ [1])⟩ :
      AuthEnvelope).digest = hmacSha2Hex [5] (algTag ++ [2] ++ [1]) ∧
    (⟨algTag, .str [1], hmacSha2Hex [5] (algTag ++ [2] ++ [1])⟩ :
      AuthEnvelope).digest =
      (⟨algTag, .str [1], hmacSha2Hex [5] (algTag ++ [2] ++ [1])⟩ :
        AuthEnvelope).digest :=
  C4_mac_digest ⟨algTag, [5]⟩ (.str [1]) (.str [2])
    ⟨algTag, .str [1], hmacSha2Hex [5] (algTag ++ [2] ++ [1])⟩
    ⟨algTag, .str [1], hmacSha2Hex [5] (algTag ++ [2] ++ [1])⟩
    (by rfl) (by rfl)

/-- Claim C5: `MessageAuthenticator.verify` raises `UnsupportedAlgorithm`
when the envelope's `alg` differs from the configured tag; otherwise it
returns the comparison of the SHA-256 hash of the digest recomputed via
`mac` from the envelope's `msg` and the supplied additional data against
the SHA-256 hash of the received digest, and this returns `True` exactly
when the two digests are equal; consequently verification of a freshly
produced envelope with the same additional data returns `True`. -/
theorem C5_verify (m : MessageAuthenticator) (env : AuthEnvelope)
    (ad : PyData) (t : Bytes) (hmsg : env.msg = .str t) :
    (env.alg ≠ m._algorithm →
      m.verify env ad = .error .UnsupportedAlgorithm) ∧
    (env.alg = m._algorithm →
      m.verify env ad =
        .ok (sha256 (hmacSha2Hex m._key (m._algorithm ++ ad.content ++ t)) ==
          sha256 env.digest) ∧
      (m.verify env ad = .ok true ↔
        hmacSha2Hex m._key (m._algorithm ++ ad.content ++ t) = env.digest)) ∧
    (∀ msg2 env2, m.mac msg2 ad = .ok env2 → m.verify env2 ad = .ok true) := by
  refine ⟨fun h => ?_, fun h => ?_, fun msg2 env2 h2 =>
    MessageAuthenticator.verify_mac_self m msg2 ad env2 h2⟩
  · simp only [MessageAuthenticator.verify]
    rw [if_pos h]
    rfl
  · have hv : m.verify env ad =
        .ok (sha256 (hmacSha2Hex m._key (m._algorithm ++ ad.content ++ t)) ==
          sha256 env.digest) := by
      simp only [MessageAuthenticator.verify]
      rw [if_neg (by simp [h]), hmsg, MessageAuthenticator.mac_str]
      rfl
    refine ⟨hv, ?_⟩
    rw [hv]
    constructor
    · intro hokEq
      simp only [Except.ok.injEq, beq_iff_eq] at hokEq
      exact sha256_injective hokEq
    · intro hdig
      rw [hdig]
      simp

/-- Concrete instantiation of `C5_verify`: an envelope with a wrong
algorithm tag is rejected with `UnsupportedAlgorithm`, and a freshly
produced envelope verifies to `True`. -/
theorem C5_verify_witness :
    MessageAuthenticator.verify ⟨algTag, [5]⟩ ⟨[0], .str [3], [9]⟩
      (.str [2]) = .error .UnsupportedAlgorithm ∧
    MessageAuthenticator.verify ⟨algTag, [5]⟩
      ⟨algTag, .str [3], hmacSha2Hex [5] (algTag ++ [2] ++ [3])⟩
      (.str [2]) = .ok true :=
  ⟨(C5_verify ⟨algTag, [5]⟩ ⟨[0], .str [3], [9]⟩ (.str [2]) [3] rfl).1
      (by decide),
   (C5_verify ⟨algTag, [5]⟩
      ⟨algTag, .str [3], hmacSha2Hex [5] (algTag ++ [2] ++ [3])⟩
      (.str [2]) [3] rfl).2.2 (.str [3])
      ⟨algTag, .str [3], hmacSha2Hex [5] (algTag ++ [2] ++ [3])⟩ (by rfl)⟩

theorem SymmetricCryptoAbstraction.init_ok (key : Bytes) (alg mode : Nat)
    (s : SymmetricCryptoAbstraction) :
    SymmetricCryptoAbstraction.init key alg mode = .ok s ↔
      16 ≤ key.length ∧ s = ⟨alg, 16, 16, mode, key.take 16, none⟩ := by
  simp only [SymmetricCryptoAbstraction.init, List.length_take]
  split
  · rename_i h
    constructor
    · intro hok
      simp only [Except.ok.injEq] at hok
      exact ⟨by omega, hok.symm⟩
    · rintro ⟨h1, h2⟩
      rw [h2]
  · rename_i h
    constructor
    · intro hok
      simp at hok
    · rintro ⟨h1, h2⟩
      exact absurd (by omega) h

theorem SymmetricCryptoAbstraction.init_error (key : Bytes) (alg mode : Nat)
    (e : CryptoError) :
    SymmetricCryptoAbstraction.init key alg mode = .error e ↔
      key.length < 16 ∧ e = .InvalidKeyLength := by
  simp only [SymmetricCryptoAbstraction.init, List.length_take]
  split
  · rename_i h
    constructor
    · intro hok
      simp at hok
    · rintro ⟨h1, h2⟩
      exact absurd (by omega : ¬ min 16 key.length = 16) (by simpa using h)
  · rename_i h
    constructor
    · intro hok
      simp only [Except.error.injEq] at hok
      exact ⟨by omega, hok.symm⟩
    · rintro ⟨h1, h2⟩
      rw [h2]

/-- Claim C6: the MAC key used by both AEAD `encrypt` and AEAD `decrypt`
equals the SHA-256 digest of the fixed domain-separation constant
concatenated with the stored encryption key, and this MAC key is never
equal to the encryption key. -/
theorem C6_mac_key (key : Bytes) (s : SymmetricCryptoAbstraction)
    (hs : SymmetricCryptoAbstraction.init key AES MODE_CBC = .ok s) :
    AuthenticatedCryptoAbstraction.mac_key s = sha256 (pmkeTag ++ s._key) ∧
    AuthenticatedCryptoAbstraction.mac_key s ≠ s._key := by
  obtain ⟨hlen, hsv⟩ := (SymmetricCryptoAbstraction.init_ok _ _ _ _).mp hs
  refine ⟨rfl, fun hEq => ?_⟩
  have h1 : (AuthenticatedCryptoAbstraction.mac_key s).length =
      pmkeTag.length + s._key.length + 1 := by
    simp [AuthenticatedCryptoAbstraction.mac_key, sha256]
  have h2 : s._key.length = 16 := by
    rw [hsv]
    simp only [List.length_take]
    omega
  have h3 : pmkeTag.length = 23 := rfl
  rw [hEq, h2, h3] at h1
  omega

/-- Concrete instantiation of `C6_mac_key` at the sample all-zero key. -/
theorem C6_mac_key_witness :
    AuthenticatedCryptoAbstraction.mac_key sampleBox =
      sha256 (pmkeTag ++ sampleBox._key) ∧
    AuthenticatedCryptoAbstraction.mac_key sampleBox ≠ sampleBox._key :=
  C6_mac_key sampleKey sampleBox (by rfl)

/-- Claim C7: construction validates the key length against the required 16
bytes: a key of length at least 16 is truncated to its first 16 bytes and
construction succeeds, while every key shorter than 16 bytes makes
construction fail with the invalid-key-length error. -/
theorem C7_key_length (key : Bytes) (alg mode : Nat) :
    (16 ≤ key.length →
      SymmetricCryptoAbstraction.init key alg mode =
        .ok ⟨alg, 16, 16, mode, key.take 16, none⟩) ∧
    (key.length < 16 →
      SymmetricCryptoAbstraction.init key alg mode =
        .error .InvalidKeyLength) :=
  ⟨fun h => (SymmetricCryptoAbstraction.init_ok _ _ _ _).mpr ⟨h, rfl⟩,
   fun h => (SymmetricCryptoAbstraction.init_error _ _ _ _).mpr ⟨h, rfl⟩⟩

/-- Concrete instantiation of `C7_key_length`: a 17-byte key is truncated
and accepted, a 3-byte key is rejected. -/
theorem C7_key_length_witness :
    SymmetricCryptoAbstraction.init (List.replicate 17 1) 0 2 =
      .ok ⟨0, 16, 16, 2, (List.replicate 17 1).take 16, none⟩ ∧
    SymmetricCryptoAbstraction.init [1, 2, 3] 0 2 =
      .error .InvalidKeyLength :=
  ⟨(C7_key_length (List.replicate 17 1) 0 2).1 (by decide),
   (C7_key_length [1, 2, 3] 0 2).2 (by decide)⟩

/-- Claim C8 (code bug): `MessageAuthenticator.mac` is documented to accept
`str` or byte-string messages, but on every `bytes` message it raises
`TypeError` ("encoding without a string argument"), because
`bytes(msg, "utf-8")` requires a `str` argument; no envelope is ever
produced over a `bytes` message. -/
theorem C8_mac_bytes_type_error (key b : Bytes) (ad : PyData) :
    MessageAuthenticator.mac ⟨algTag, key⟩ (.bytes b) ad =
      .error .TypeError := by
  cases ad <;> rfl

/-- Claim C9 (counterexample): `SymmetricCryptoAbstraction.encrypt` does
modify a field of its own instance state: after an encryption the `_IV`
attribute differs from its prior value. -/
theorem C9_counterexample :
    (SymmetricCryptoAbstraction.encrypt sampleBox [] (.str [7])).2 ≠
      sampleBox := by
  decide

/-- Claim C9 (amended): `MessageAuthenticator.mac` and `verify` are pure
(they assign no instance attribute), and the only instance-state
modification performed by `SymmetricCryptoAbstraction.encrypt` — besides
consuming entropy — is storing the freshly drawn IV in the `_IV` attribute:
the key, algorithm, mode, key-length and block-size fields are all
unchanged. -/
theorem C9_frame (self : SymmetricCryptoAbstraction) (rand : Bytes)
    (message : PyData) :
    (SymmetricCryptoAbstraction.encrypt self rand message).2 =
      { self with _IV := some rand } ∧
    (SymmetricCryptoAbstraction.encrypt self rand message).2._key =
      self._key ∧
    (SymmetricCryptoAbstraction.encrypt self rand message).2._alg =
      self._alg ∧
    (SymmetricCryptoAbstraction.encrypt self rand message).2._mode =
      self._mode ∧
    (SymmetricCryptoAbstraction.encrypt self rand message).2.key_len =
      self.key_len ∧
    (SymmetricCryptoAbstraction.encrypt self rand message).2._block_size =
      self._block_size := by
  rw [SymmetricCryptoAbstraction.encrypt_snd]
  exact ⟨rfl, rfl, rfl, rfl, rfl, rfl⟩

/-- Claim C10: two AEAD boxes built from keys that agree on their first 16
bytes (both at least 16 bytes long) are observably equivalent: construction
yields equal states, and encryption (given the same randomness) and
decryption coincide on every input. -/
theorem C10_observable_equiv (k1 k2 : Bytes)
    (h1 : 16 ≤ k1.length) (h2 : 16 ≤ k2.length)
    (hpre : k1.take 16 = k2.take 16)
    (s1 s2 : SymmetricCryptoAbstraction)
    (hs1 : SymmetricCryptoAbstraction.init k1 AES MODE_CBC = .ok s1)
    (hs2 : SymmetricCryptoAbstraction.init k2 AES MODE_CBC = .ok s2) :
    s1 = s2 ∧
    (∀ rand msg ad,
      AuthenticatedCryptoAbstraction.encrypt s1 rand msg ad =
        AuthenticatedCryptoAbstraction.encrypt s2 rand msg ad) ∧
    (∀ env ad,
      AuthenticatedCryptoAbstraction.decrypt s1 env ad =
        AuthenticatedCryptoAbstraction.decrypt s2 env ad) := by
  obtain ⟨-, hv1⟩ := (SymmetricCryptoAbstraction.init_ok _ _ _ _).mp hs1
  obtain ⟨-, hv2⟩ := (SymmetricCryptoAbstraction.init_ok _ _ _ _).mp hs2
  have hss : s1 = s2 := by
    rw [hv1, hv2, hpre]
  subst hss
  exact ⟨rfl, fun _ _ _ => rfl, fun _ _ => rfl⟩

/-- Concrete instantiation of `C10_observable_equiv`: two keys extending
the all-zero 16-byte prefix differently construct the same box, so
encryption under them coincides. -/
theorem C10_observable_equiv_witness :
    AuthenticatedCryptoAbstraction.encrypt sampleBox [] (.str [7])
      (.str []) =
    AuthenticatedCryptoAbstraction.encrypt sampleBox [] (.str [7])
      (.str []) :=
  (C10_observable_equiv (List.replicate 16 0 ++ [1])
    (List.replicate 16 0 ++ [2, 3]) (by decide) (by decide) (by decide)
    sampleBox sampleBox (by rfl) (by rfl)).2.1 [] (.str [7]) (.str [])

end Symcrypto
